import Mathlib

/-!
Shallow embedding of the `fixed_size` attribute transformer (src/lib.rs).

The crate is a syntax-level transformer: `Args::parse` reads the attribute's
comma-separated list of `ExprAssign` entries into an `Args` value (a
field-name → capacity map `size_map` plus a replacement type name `typ`,
defaulting to `ArrayString`), and `impl Fold for Args` rewrites every struct
field whose name is in `size_map` and whose declared type is recognized as
`String` into `typ::<n>`.

Modelling choices, each tied to the source:
  * `syn::Path` is modelled with its leading `::` flag and a nonempty segment
    list (`seg0 :: rest`); a segment carries its identifier and an optional
    const-generic argument (the only path-argument shape the rewriter ever
    constructs, via `parse_quote!{#typ::<#num>}`); recognition of `String`
    only inspects identifiers and emptiness of arguments, so richer argument
    payloads are irrelevant to every claim.
  * `HashMap<Ident, LitInt>` is modelled as an association list with
    overwrite-on-insert, matching `HashMap::insert`; `syn::Ident` equality
    compares the identifier text, so keys are `String`.
  * `Args::parse` can terminate three ways: `Ok`, `Err` (the `ERRMSG`
    diagnostic), or a Rust panic — the `.unwrap()` on `get_ident()` panics
    when an assignment's left-hand side is a path that is not a bare
    identifier.  `ParseResult` keeps the three outcomes distinct.
  * The `Fold` impl only overrides `fold_field`; `fold_item_struct` therefore
    rebuilds the struct with every non-field component unchanged, which the
    model writes explicitly.
-/

namespace FixedSize

/-- One segment of a syntactic path: an identifier plus optional arguments.
`args = some n` models a single const-generic capacity argument (as produced
by the rewriter in `typ::<n>`); `none` models `PathArguments::None`. -/
structure PathSeg where
  ident : String
  args : Option Nat
deriving DecidableEq, Repr

/-- A syntactic path (`syn::Path`): an optional leading `::` and a nonempty
segment sequence `seg0 :: rest` (paths produced by parsing always have at
least one segment). -/
structure Path where
  leadingColon : Bool
  seg0 : PathSeg
  rest : List PathSeg
deriving DecidableEq, Repr

/-- `syn::Path::get_ident`: `Some` exactly when the path has no leading `::`,
a single segment, and that segment has no arguments. -/
def Path.get_ident (p : Path) : Option String :=
  if p.leadingColon = false ∧ p.rest = [] ∧ p.seg0.args = none then
    some p.seg0.ident
  else
    none

/-- `syn::Path::is_ident`: the path is exactly the given bare identifier. -/
def Path.is_ident (p : Path) (s : String) : Bool :=
  p.get_ident == some s

/-- `path.segments.last().unwrap()` — total here because the segment list of
the model is nonempty by construction. -/
def Path.lastSeg (p : Path) : PathSeg :=
  p.rest.getLast?.getD p.seg0

/-- The literal shapes `Args::parse` distinguishes: `Lit::Int`, `Lit::Str`
(an example of a non-integer literal), and any other literal kind. -/
inductive Lit where
  | int (n : Nat)
  | str (s : String)
  | other (tag : Nat)
deriving DecidableEq, Repr

/-- The expression shapes `Args::parse` distinguishes on each side of an
assignment: `Expr::Path`, `Expr::Lit`, and any other expression kind. -/
inductive Expr where
  | path (p : Path)
  | lit (l : Lit)
  | other (tag : Nat)
deriving DecidableEq, Repr

/-- One attribute-argument entry `left = right` (`syn::ExprAssign`). -/
structure ExprAssign where
  left : Expr
  right : Expr
deriving DecidableEq, Repr

/-- A declared field type (`syn::Type`): a path type, or any other type
shape (reference, tuple, …), which `fold_field` leaves untouched. -/
inductive Ty where
  | path (p : Path)
  | other (tag : Nat)
deriving DecidableEq, Repr

/-- `type MapType = HashMap<Ident, LitInt>`, modelled as an association list
whose `insert` overwrites an existing binding (as `HashMap::insert` does). -/
abbrev MapType := List (String × Nat)

/-- `HashMap::insert` with overwrite semantics. -/
def mapInsert (k : String) (v : Nat) : MapType → MapType
  | [] => [(k, v)]
  | (k', v') :: rest => if k' = k then (k, v) :: rest else (k', v') :: mapInsert k v rest

/-- `HashMap::get`. -/
def mapGet (k : String) : MapType → Option Nat
  | [] => none
  | (k', v') :: rest => if k' = k then some v' else mapGet k rest

/-- `struct Args { size_map: MapType, typ: Ident }` — the parsed
configuration. -/
structure Args where
  size_map : MapType
  typ : String
deriving DecidableEq, Repr

/-- `const ERRMSG` from the source. -/
def ERRMSG : String := "Must specify an Ident=Int or typ=Structname"

/-- The three ways `Args::parse` can terminate: success, `Err` with a
diagnostic message, or a Rust panic (from `.unwrap()` on `None`). -/
inductive ParseResult (α : Type) where
  | ok (val : α)
  | err (msg : String)
  | panicked
deriving DecidableEq, Repr

/-- One iteration of the `for var in vars` loop in `Args::parse`, acting on
the accumulated state.  Mirrors the `match (&*var.left, &*var.right)`
arms, including the `get_ident().unwrap()` calls that panic when the
left-hand side path is not a bare identifier. -/
def parseStep (st : Args) (e : ExprAssign) : ParseResult Args :=
  match e.left, e.right with
  | Expr.path p, Expr.lit v =>
    match p.get_ident with
    | none => ParseResult.panicked
    | some key =>
      match v with
      | Lit.int num => ParseResult.ok { st with size_map := mapInsert key num st.size_map }
      | _ => ParseResult.err ERRMSG
  | Expr.path p, Expr.path v =>
    match p.get_ident with
    | none => ParseResult.panicked
    | some key =>
      if key ≠ "typ" then ParseResult.err ERRMSG
      else
        match v.get_ident with
        | some val => ParseResult.ok { st with typ := val }
        | none => ParseResult.err ERRMSG
  | _, _ => ParseResult.err ERRMSG

/-- The loop of `Args::parse`, left-to-right over the entries, stopping at
the first error or panic. -/
def parseFrom (st : Args) : List ExprAssign → ParseResult Args
  | [] => ParseResult.ok st
  | e :: es =>
    match parseStep st e with
    | ParseResult.ok st' => parseFrom st' es
    | ParseResult.err m => ParseResult.err m
    | ParseResult.panicked => ParseResult.panicked

/-- `impl Parse for Args`: start from an empty `size_map` and the default
replacement type `ArrayString`, then process the entries in order. -/
def Args.parse (es : List ExprAssign) : ParseResult Args :=
  parseFrom { size_map := [], typ := "ArrayString" } es

/-- Field attributes, kept opaque (raw token text). -/
abbrev Attr := String

/-- `syn::Visibility`, opaque except for identity. -/
inductive Vis where
  | pub
  | inherited
  | restricted (path : List String)
deriving DecidableEq, Repr

/-- `syn::FieldMutability` (only one variant exists today). -/
inductive FieldMutability where
  | noMut
deriving DecidableEq, Repr

/-- `syn::Field`, with exactly the components the source reads and copies:
`attrs`, `vis`, `mutability`, `ident`, `colon_token`, `ty`. -/
structure Field where
  attrs : List Attr
  vis : Vis
  mutability : FieldMutability
  ident : Option String
  colon_token : Bool
  ty : Ty
deriving DecidableEq, Repr

/-- The type-recognition test on line 121 of the source:
`p.path.is_ident("String") || p.path.segments.last().unwrap().ident == "String"`. -/
def pathIsString (p : Path) : Bool :=
  p.is_ident "String" || p.lastSeg.ident == "String"

/-- `Args::fold_field`: rewrite a field to `typ::<num>` when it is named, its
name is bound in `size_map`, and its declared type is a path recognized as
`String`; otherwise return the field unchanged.  Total — the rewriter has no
error exit. -/
def Args.fold_field (a : Args) (input : Field) : Field :=
  match input.ident with
  | some key =>
    match mapGet key a.size_map with
    | some num =>
      match input.ty with
      | Ty.path p =>
        if pathIsString p then
          { attrs := input.attrs
            vis := input.vis
            mutability := input.mutability
            ident := input.ident
            colon_token := input.colon_token
            ty := Ty.path { leadingColon := false, seg0 := { ident := a.typ, args := some num }, rest := [] } }
        else input
      | Ty.other _ => input
    | none => input
  | none => input

/-- `syn::Fields`: named fields, unnamed (tuple) fields, or a unit struct. -/
inductive Fields where
  | named (fs : List Field)
  | unnamed (fs : List Field)
  | unit
deriving DecidableEq, Repr

/-- Generic parameters, opaque (raw token text); the fold never touches
them. -/
abbrev Generics := String

/-- `syn::ItemStruct`, with the components the default fold rebuilds. -/
structure ItemStruct where
  attrs : List Attr
  vis : Vis
  ident : String
  generics : Generics
  fields : Fields
deriving DecidableEq, Repr

/-- The default `fold_fields` specialized to an `Args` folder: apply
`fold_field` to every field, preserving the fields' shape and order. -/
def Args.fold_fields (a : Args) : Fields → Fields
  | Fields.named fs => Fields.named (fs.map a.fold_field)
  | Fields.unnamed fs => Fields.unnamed (fs.map a.fold_field)
  | Fields.unit => Fields.unit

/-- `fold_item_struct` for `Args`: only `fold_field` is overridden in the
source, so every component other than the fields is rebuilt unchanged. -/
def Args.fold_item_struct (a : Args) (s : ItemStruct) : ItemStruct :=
  { s with fields := a.fold_fields s.fields }

/-- A bare-identifier path. -/
def identPath (s : String) : Path :=
  { leadingColon := false, seg0 := { ident := s, args := none }, rest := [] }

/-- A bare-identifier expression. -/
def identExpr (s : String) : Expr :=
  Expr.path (identPath s)

/-- The entry `k = n` (field-capacity assignment). -/
def sizeEntry (k : String) (n : Nat) : ExprAssign :=
  { left := identExpr k, right := Expr.lit (Lit.int n) }

/-- The entry `typ = t` (replacement-type assignment). -/
def typEntry (t : String) : ExprAssign :=
  { left := identExpr "typ", right := identExpr t }

/-- Does an entry actually assign the replacement type?  True exactly when
the left-hand side is the bare identifier `typ` and the right-hand side is a
path expression (the only arm of `Args::parse` that writes `typ`). -/
def setsTyp (e : ExprAssign) : Bool :=
  match e.left, e.right with
  | Expr.path p, Expr.path _ => p.get_ident == some "typ"
  | _, _ => false

/-- Everything of a `Field` except its type: what rule 3 of the rewriter
copies unchanged. -/
structure FieldFrame where
  attrs : List Attr
  vis : Vis
  mutability : FieldMutability
  ident : Option String
  colon_token : Bool
deriving DecidableEq, Repr

/-- Forget a field's type. -/
def Field.frame (f : Field) : FieldFrame :=
  { attrs := f.attrs, vis := f.vis, mutability := f.mutability
    ident := f.ident, colon_token := f.colon_token }

/-- `Fields` with every field's type forgotten: shape, order, count and
per-field metadata. -/
inductive FieldsFrame where
  | named (fs : List FieldFrame)
  | unnamed (fs : List FieldFrame)
  | unit
deriving DecidableEq, Repr

/-- Forget all field types of a `Fields`. -/
def Fields.frame : Fields → FieldsFrame
  | Fields.named fs => FieldsFrame.named (fs.map Field.frame)
  | Fields.unnamed fs => FieldsFrame.unnamed (fs.map Field.frame)
  | Fields.unit => FieldsFrame.unit

/-! ### Helper lemmas -/

/-- Looking up a key just inserted finds the inserted value. -/
lemma mapGet_mapInsert_self (k : String) (v : Nat) (m : MapType) :
    mapGet k (mapInsert k v m) = some v := by
  induction m with
  | nil => simp [mapInsert, mapGet]
  | cons hd tl ih =>
    obtain ⟨k', v'⟩ := hd
    by_cases h : k' = k
    · simp [mapInsert, mapGet, h]
    · simp [mapInsert, mapGet, h, ih]

/-- The parse loop over a concatenation runs the first part and, on success,
continues with its state; errors and panics propagate. -/
lemma parseFrom_append (st : Args) (es es' : List ExprAssign) :
    parseFrom st (es ++ es') =
      match parseFrom st es with
      | ParseResult.ok st' => parseFrom st' es'
      | ParseResult.err m => ParseResult.err m
      | ParseResult.panicked => ParseResult.panicked := by
  induction es generalizing st with
  | nil => simp [parseFrom]
  | cons e es ih =>
    simp only [List.cons_append, parseFrom]
    cases parseStep st e with
    | ok st' => exact ih st'
    | err m => rfl
    | panicked => rfl

/-- `get_ident` of a bare-identifier path. -/
lemma get_ident_identPath (s : String) : (identPath s).get_ident = some s := by
  simp [identPath, Path.get_ident]

/-- A successful parse step that is not a `typ` assignment leaves the stored
replacement type unchanged. -/
lemma parseStep_typ_of_not_setsTyp (st st' : Args) (e : ExprAssign)
    (h : parseStep st e = ParseResult.ok st') (hn : setsTyp e = false) :
    st'.typ = st.typ := by
  obtain ⟨l, r⟩ := e
  cases l with
  | path p =>
    cases r with
    | lit v =>
      simp only [parseStep] at h
      cases hp : p.get_ident with
      | none => simp [hp] at h
      | some key =>
        cases v with
        | int num => simp [hp] at h; subst h; rfl
        | str s => simp [hp] at h
        | other t => simp [hp] at h
    | path v =>
      simp only [parseStep] at h
      cases hp : p.get_ident with
      | none => simp [hp] at h
      | some key =>
        by_cases hk : key = "typ"
        · exfalso
          simp [setsTyp, hp, hk] at hn
        · simp [hp, hk] at h
    | other t => simp [parseStep] at h
  | lit l => simp [parseStep] at h
  | other t => simp [parseStep] at h

/-- If no entry assigns `typ`, a successful run of the parse loop keeps the
replacement type it started with. -/
lemma parseFrom_typ_of_not_setsTyp (es : List ExprAssign) :
    ∀ (st a : Args), parseFrom st es = ParseResult.ok a →
      (∀ e ∈ es, setsTyp e = false) → a.typ = st.typ := by
  induction es with
  | nil =>
    intro st a h _
    simp [parseFrom] at h
    subst h
    rfl
  | cons e es ih =>
    intro st a h hn
    simp only [parseFrom] at h
    cases hs : parseStep st e with
    | ok st' =>
      rw [hs] at h
      have h1 := ih st' a h (fun x hx => hn x (List.mem_cons_of_mem e hx))
      have h2 := parseStep_typ_of_not_setsTyp st st' e hs (hn e (List.mem_cons_self e es))
      rw [h1, h2]
    | err m => rw [hs] at h; exact absurd h (by simp)
    | panicked => rw [hs] at h; exact absurd h (by simp)

/-- If the last entry is `k = n`, a successful parse binds `k` to `n`. -/
lemma parse_append_sizeEntry (es : List ExprAssign) (k : String) (n : Nat) (a : Args)
    (h : Args.parse (es ++ [sizeEntry k n]) = ParseResult.ok a) :
    mapGet k a.size_map = some n := by
  unfold Args.parse at h
  rw [parseFrom_append] at h
  cases hp : parseFrom { size_map := [], typ := "ArrayString" } es with
  | ok st' =>
    rw [hp] at h
    simp only [parseFrom, parseStep, sizeEntry, identExpr, get_ident_identPath] at h
    simp at h
    subst h
    exact mapGet_mapInsert_self k n st'.size_map
  | err m => rw [hp] at h; exact absurd h (by simp)
  | panicked => rw [hp] at h; exact absurd h (by simp)

/-- If the last entry is `typ = t`, a successful parse stores `t` as the
replacement type. -/
lemma parse_append_typEntry (es : List ExprAssign) (t : String) (a : Args)
    (h : Args.parse (es ++ [typEntry t]) = ParseResult.ok a) :
    a.typ = t := by
  unfold Args.parse at h
  rw [parseFrom_append] at h
  cases hp : parseFrom { size_map := [], typ := "ArrayString" } es with
  | ok st' =>
    rw [hp] at h
    simp only [parseFrom, parseStep, typEntry, identExpr, get_ident_identPath] at h
    simp at h
    subst h
    rfl
  | err m => rw [hp] at h; exact absurd h (by simp)
  | panicked => rw [hp] at h; exact absurd h (by simp)

/-- Substitution case of `fold_field`: named field, bound in the map,
`String`-recognized path type. -/
lemma fold_field_subst (a : Args) (f : Field) (key : String) (n : Nat) (p : Path)
    (hid : f.ident = some key) (hnum : mapGet key a.size_map = some n)
    (hty : f.ty = Ty.path p) (hstr : pathIsString p = true) :
    a.fold_field f =
      { f with ty := Ty.path { leadingColon := false, seg0 := { ident := a.typ, args := some n }, rest := [] } } := by
  obtain ⟨attrs, vis, mu, id?, colon, ty⟩ := f
  simp only at hid hty
  subst hid
  subst hty
  simp [Args.fold_field, hnum, hstr]

/-- A field whose type is not a `String`-recognized path passes through
unchanged, whatever the configuration. -/
lemma fold_field_skip_ty (a : Args) (f : Field)
    (hty : ∀ p, f.ty = Ty.path p → pathIsString p = false) :
    a.fold_field f = f := by
  obtain ⟨attrs, vis, mu, id?, colon, ty⟩ := f
  cases id? with
  | none => rfl
  | some key =>
    cases hm : mapGet key a.size_map with
    | none => simp [Args.fold_field, hm]
    | some n =>
      cases ty with
      | other t => simp [Args.fold_field, hm]
      | path p =>
        have hs := hty p rfl
        simp [Args.fold_field, hm, hs]

/-- With an empty `size_map`, `fold_field` is the identity. -/
lemma fold_field_empty_map (a : Args) (f : Field) (h : a.size_map = []) :
    a.fold_field f = f := by
  obtain ⟨attrs, vis, mu, id?, colon, ty⟩ := f
  cases id? with
  | none => rfl
  | some key => simp [Args.fold_field, h, mapGet]

/-- `fold_field` never changes anything but the type. -/
lemma fold_field_frame (a : Args) (f : Field) :
    (a.fold_field f).frame = f.frame := by
  obtain ⟨attrs, vis, mu, id?, colon, ty⟩ := f
  cases id? with
  | none => rfl
  | some key =>
    cases hm : mapGet key a.size_map with
    | none => simp [Args.fold_field, hm]
    | some n =>
      cases ty with
      | other t => simp [Args.fold_field, hm]
      | path p =>
        by_cases hs : pathIsString p
        · simp [Args.fold_field, hm, hs, Field.frame]
        · simp [Args.fold_field, hm, hs]

/-- Mapping `fold_field` over fields preserves their frames. -/
lemma map_fold_field_frame (a : Args) (fs : List Field) :
    (fs.map a.fold_field).map Field.frame = fs.map Field.frame := by
  induction fs with
  | nil => rfl
  | cons f fs ih => simp [ih, fold_field_frame]

/-- Mapping an identity-on-each-element function is the identity. -/
lemma map_fold_field_of_empty (a : Args) (fs : List Field) (h : a.size_map = []) :
    fs.map a.fold_field = fs := by
  induction fs with
  | nil => rfl
  | cons f fs ih => simp [ih, fold_field_empty_map a f h]

/-- With an empty `size_map`, the fold is the identity on whole structs. -/
lemma fold_item_struct_empty_map (a : Args) (s : ItemStruct) (h : a.size_map = []) :
    a.fold_item_struct s = s := by
  obtain ⟨attrs, vis, ident, generics, fields⟩ := s
  cases fields with
  | named fs => simp [Args.fold_item_struct, Args.fold_fields, map_fold_field_of_empty a fs h]
  | unnamed fs => simp [Args.fold_item_struct, Args.fold_fields, map_fold_field_of_empty a fs h]
  | unit => rfl

/-- An entry whose right-hand side is a path can only pass the parse step if
its left-hand side is the bare identifier `typ`. -/
lemma parseStep_ok_path_rhs (st st' : Args) (e : ExprAssign) (v : Path)
    (h : parseStep st e = ParseResult.ok st') (hr : e.right = Expr.path v) :
    ∃ p, e.left = Expr.path p ∧ p.get_ident = some "typ" := by
  obtain ⟨l, r⟩ := e
  simp only at hr
  subst hr
  cases l with
  | path p =>
    refine ⟨p, rfl, ?_⟩
    simp only [parseStep] at h
    cases hp : p.get_ident with
    | none => simp [hp] at h
    | some key =>
      by_cases hk : key = "typ"
      · rw [hk]
      · simp [hp, hk] at h
  | lit l => simp [parseStep] at h
  | other t => simp [parseStep] at h

/-- In a successfully parsed list, every entry whose right-hand side is a
path has the bare identifier `typ` on the left. -/
lemma parseFrom_ok_mem_path_rhs (es : List ExprAssign) :
    ∀ (st a : Args), parseFrom st es = ParseResult.ok a →
      ∀ e ∈ es, ∀ v, e.right = Expr.path v →
        ∃ p, e.left = Expr.path p ∧ p.get_ident = some "typ" := by
  induction es with
  | nil => intro st a _ e he; exact absurd he (List.not_mem_nil e)
  | cons e₀ es ih =>
    intro st a h e he v hr
    simp only [parseFrom] at h
    cases hs : parseStep st e₀ with
    | ok st' =>
      rw [hs] at h
      rcases List.mem_cons.mp he with heq | hmem
      · subst heq
        exact parseStep_ok_path_rhs st st' e v hs hr
      · exact ih st' a h e hmem v hr
    | err m => rw [hs] at h; exact absurd h (by simp)
    | panicked => rw [hs] at h; exact absurd h (by simp)

/-- A bare-identifier left-hand side other than `typ` paired with a path
right-hand side makes the parse step fail with the fixed diagnostic. -/
lemma parseStep_err_non_typ (st : Args) (e : ExprAssign) (p v : Path) (k : String)
    (hl : e.left = Expr.path p) (hk : p.get_ident = some k) (hne : k ≠ "typ")
    (hr : e.right = Expr.path v) :
    parseStep st e = ParseResult.err ERRMSG := by
  obtain ⟨l, r⟩ := e
  simp only at hl hr
  subst hl
  subst hr
  simp [parseStep, hk, hne]

/-! ### Claim theorems -/

/-- C1: a named field bound to capacity `n` in `size_map`, whose declared
type is a path recognized as the variable-length string type `String`, is
rewritten by `fold_field` to the generic instantiation `typ::<n>`, while its
attributes, visibility, mutability, name and colon token are copied unchanged
into the new field. -/
theorem c1_exact_substitution (a : Args) (f : Field) (key : String) (n : Nat) (p : Path)
    (hid : f.ident = some key) (hnum : mapGet key a.size_map = some n)
    (hty : f.ty = Ty.path p) (hstr : pathIsString p = true) :
    a.fold_field f =
      { attrs := f.attrs
        vis := f.vis
        mutability := f.mutability
        ident := f.ident
        colon_token := f.colon_token
        ty := Ty.path { leadingColon := false, seg0 := { ident := a.typ, args := some n }, rest := [] } } := by
  rw [fold_field_subst a f key n p hid hnum hty hstr]

/-- Witness for C1: the field `code: String` under `#[fixed(code=4)]` becomes
`code: ArrayString::<4>` with all other metadata intact. -/
theorem c1_exact_substitution_witness :
    (Field.mk ["doc"] Vis.pub FieldMutability.noMut (some "code") true (Ty.path (identPath "String"))).ident = some "code"
    ∧ mapGet "code" (Args.mk [("code", 4)] "ArrayString").size_map = some 4
    ∧ (Field.mk ["doc"] Vis.pub FieldMutability.noMut (some "code") true (Ty.path (identPath "String"))).ty = Ty.path (identPath "String")
    ∧ pathIsString (identPath "String") = true
    ∧ (Args.mk [("code", 4)] "ArrayString").fold_field
        (Field.mk ["doc"] Vis.pub FieldMutability.noMut (some "code") true (Ty.path (identPath "String")))
      = Field.mk ["doc"] Vis.pub FieldMutability.noMut (some "code") true
          (Ty.path { leadingColon := false, seg0 := { ident := "ArrayString", args := some 4 }, rest := [] }) := by
  refine ⟨rfl, rfl, rfl, rfl, ?_⟩
  exact c1_exact_substitution _ _ "code" 4 (identPath "String") rfl rfl rfl rfl

/-- C2 (evaluation at the failing input): a non-path left-hand side such as
`3 = foo` is rejected with the fixed diagnostic as the claim states, but the
multi-segment-path left-hand side `a::b = 3` — the claim's own example —
makes `Args::parse` panic in `get_ident().unwrap()` instead of failing with
the `MalformedArgument` diagnostic. -/
theorem c2_non_ident_lhs_eval :
    Args.parse [{ left := Expr.lit (Lit.int 3), right := identExpr "foo" }]
      = ParseResult.err ERRMSG
    ∧ Args.parse [{ left := Expr.path { leadingColon := false, seg0 := { ident := "a", args := none }, rest := [{ ident := "b", args := none }] },
                    right := Expr.lit (Lit.int 3) }]
      = ParseResult.panicked :=
  ⟨rfl, rfl⟩

/-- C3: a field whose name is bound in `size_map` but whose declared type is
not recognized as the variable-length string type (not a path type, or a path
failing the `String` recognition test) passes through `fold_field` unchanged;
`fold_field` is a total function into `Field`, so this path has no error
exit. -/
theorem c3_silent_skip_on_type_mismatch (a : Args) (f : Field) (key : String) (n : Nat)
    (hid : f.ident = some key) (hnum : mapGet key a.size_map = some n)
    (hty : ∀ p, f.ty = Ty.path p → pathIsString p = false) :
    a.fold_field f = f :=
  fold_field_skip_ty a f hty

/-- Witness for C3: the field `id: i32` under `#[fixed(id=2)]` is left
unchanged. -/
theorem c3_silent_skip_on_type_mismatch_witness :
    (Field.mk [] Vis.inherited FieldMutability.noMut (some "id") true (Ty.path (identPath "i32"))).ident = some "id"
    ∧ mapGet "id" (Args.mk [("id", 2)] "ArrayString").size_map = some 2
    ∧ (∀ p, (Field.mk [] Vis.inherited FieldMutability.noMut (some "id") true (Ty.path (identPath "i32"))).ty = Ty.path p → pathIsString p = false)
    ∧ (Args.mk [("id", 2)] "ArrayString").fold_field
        (Field.mk [] Vis.inherited FieldMutability.noMut (some "id") true (Ty.path (identPath "i32")))
      = Field.mk [] Vis.inherited FieldMutability.noMut (some "id") true (Ty.path (identPath "i32")) := by
  have hty : ∀ p, (Field.mk [] Vis.inherited FieldMutability.noMut (some "id") true (Ty.path (identPath "i32"))).ty = Ty.path p → pathIsString p = false := by
    intro p hp
    injection hp with h
    subst h
    rfl
  exact ⟨rfl, rfl, hty, c3_silent_skip_on_type_mismatch _ _ "id" 2 rfl rfl hty⟩

/-- C4 (evaluation at the failing input): a bare-identifier entry with a
string-literal value (`x = "abc"`) is rejected with the fixed diagnostic and
no configuration is produced, as the claim states; but the same malformed
right-hand side behind a multi-segment-path left-hand side (`a::b = "abc"`)
makes the parser panic before the literal is even inspected, so that failure
is a panic, not the claimed terminal parse error. -/
theorem c4_malformed_rhs_eval :
    Args.parse [{ left := identExpr "x", right := Expr.lit (Lit.str "abc") }]
      = ParseResult.err ERRMSG
    ∧ Args.parse [{ left := Expr.path { leadingColon := false, seg0 := { ident := "a", args := none }, rest := [{ ident := "b", args := none }] },
                    right := Expr.lit (Lit.str "abc") }]
      = ParseResult.panicked :=
  ⟨rfl, rfl⟩

/-- C5: when no entry assigns the replacement type, a successful parse keeps
the default `ArrayString`; when the final entry is `typ = Custom` the parse
stores `Custom`; and the substitution performed by `fold_field` instantiates
exactly the stored replacement type at the bound capacity — so the two cases
produce `ArrayString::<n>` and `Custom::<n>` respectively. -/
theorem c5_default_and_custom_replacement :
    (∀ (es : List ExprAssign) (a : Args), Args.parse es = ParseResult.ok a →
        (∀ e ∈ es, setsTyp e = false) → a.typ = "ArrayString")
    ∧ (∀ (es : List ExprAssign) (a : Args),
        Args.parse (es ++ [typEntry "Custom"]) = ParseResult.ok a → a.typ = "Custom")
    ∧ (∀ (a : Args) (f : Field) (key : String) (n : Nat) (p : Path),
        f.ident = some key → mapGet key a.size_map = some n → f.ty = Ty.path p →
        pathIsString p = true →
        (a.fold_field f).ty =
          Ty.path { leadingColon := false, seg0 := { ident := a.typ, args := some n }, rest := [] }) := by
  refine ⟨?_, ?_, ?_⟩
  · intro es a h hn
    exact parseFrom_typ_of_not_setsTyp es _ a h hn
  · intro es a h
    exact parse_append_typEntry es "Custom" a h
  · intro a f key n p hid hnum hty hstr
    rw [fold_field_subst a f key n p hid hnum hty hstr]

/-- Witness for C5: `#[fixed(name=8)]` keeps the default `ArrayString`;
`#[fixed(name=8, typ=Custom)]` stores `Custom` and rewrites `name: String`
to `Custom::<8>`. -/
theorem c5_default_and_custom_replacement_witness :
    Args.parse [sizeEntry "name" 8] = ParseResult.ok (Args.mk [("name", 8)] "ArrayString")
    ∧ (∀ e ∈ [sizeEntry "name" 8], setsTyp e = false)
    ∧ (Args.mk [("name", 8)] "ArrayString").typ = "ArrayString"
    ∧ Args.parse ([sizeEntry "name" 8] ++ [typEntry "Custom"]) = ParseResult.ok (Args.mk [("name", 8)] "Custom")
    ∧ (Args.mk [("name", 8)] "Custom").typ = "Custom"
    ∧ ((Args.mk [("name", 8)] "Custom").fold_field
        (Field.mk [] Vis.inherited FieldMutability.noMut (some "name") true (Ty.path (identPath "String")))).ty
      = Ty.path { leadingColon := false, seg0 := { ident := "Custom", args := some 8 }, rest := [] } := by
  have hn : ∀ e ∈ [sizeEntry "name" 8], setsTyp e = false := by decide
  refine ⟨rfl, hn, ?_, rfl, ?_, ?_⟩
  · exact c5_default_and_custom_replacement.1 [sizeEntry "name" 8] _ rfl hn
  · exact c5_default_and_custom_replacement.2.1 [sizeEntry "name" 8] _ rfl
  · exact c5_default_and_custom_replacement.2.2 _ _ "name" 8 (identPath "String") rfl rfl rfl rfl

/-- C6: the empty argument list parses successfully into the configuration
with an empty `size_map`, and folding any struct with that configuration
returns the struct unchanged. -/
theorem c6_identity_on_empty_config (a : Args) (s : ItemStruct)
    (h : Args.parse [] = ParseResult.ok a) :
    a.fold_item_struct s = s := by
  have h' : ParseResult.ok ({ size_map := [], typ := "ArrayString" } : Args) = ParseResult.ok a := h
  injection h' with h''
  exact fold_item_struct_empty_map a s (by rw [← h''])

/-- Witness for C6: `#[fixed()]` leaves a concrete one-field struct exactly
as it was. -/
theorem c6_identity_on_empty_config_witness :
    Args.parse [] = ParseResult.ok (Args.mk [] "ArrayString")
    ∧ (Args.mk [] "ArrayString").fold_item_struct
        (ItemStruct.mk ["derive(Debug)"] Vis.pub "Foo" ""
          (Fields.named [Field.mk [] Vis.inherited FieldMutability.noMut (some "my_string") true (Ty.path (identPath "String"))]))
      = ItemStruct.mk ["derive(Debug)"] Vis.pub "Foo" ""
          (Fields.named [Field.mk [] Vis.inherited FieldMutability.noMut (some "my_string") true (Ty.path (identPath "String"))]) :=
  ⟨rfl, c6_identity_on_empty_config _ _ rfl⟩

/-- C7: duplicate keys resolve by overwrite — when the last entry of the
argument list is `k = n`, a successful parse binds `k` to `n` in `size_map`
whatever came before, and when the last entry is `typ = t`, the stored
replacement type is `t` whatever earlier `typ` assignments said; duplicates
are never an error. -/
theorem c7_last_duplicate_wins :
    (∀ (es : List ExprAssign) (k : String) (n : Nat) (a : Args),
        Args.parse (es ++ [sizeEntry k n]) = ParseResult.ok a →
        mapGet k a.size_map = some n)
    ∧ (∀ (es : List ExprAssign) (t : String) (a : Args),
        Args.parse (es ++ [typEntry t]) = ParseResult.ok a → a.typ = t) :=
  ⟨parse_append_sizeEntry, parse_append_typEntry⟩

/-- Witness for C7: `#[fixed(x=1, x=2)]` parses successfully and binds `x`
to `2`; `#[fixed(typ=A, typ=B)]` parses successfully and stores `B`. -/
theorem c7_last_duplicate_wins_witness :
    Args.parse ([sizeEntry "x" 1] ++ [sizeEntry "x" 2]) = ParseResult.ok (Args.mk [("x", 2)] "ArrayString")
    ∧ mapGet "x" (Args.mk [("x", 2)] "ArrayString").size_map = some 2
    ∧ Args.parse ([typEntry "A"] ++ [typEntry "B"]) = ParseResult.ok (Args.mk [] "B")
    ∧ (Args.mk [] "B").typ = "B" := by
  refine ⟨rfl, ?_, rfl, ?_⟩
  · exact c7_last_duplicate_wins.1 [sizeEntry "x" 1] "x" 2 _ rfl
  · exact c7_last_duplicate_wins.2 [typEntry "A"] "B" _ rfl

/-- C8: among entries whose right-hand side is a path expression (in
particular an identifier), a successful parse forces the left-hand side to be
the bare identifier `typ`; and a bare identifier other than `typ` paired with
a path right-hand side makes the parse step fail with the fixed
diagnostic. -/
theorem c8_typ_is_reserved :
    (∀ (es : List ExprAssign) (a : Args), Args.parse es = ParseResult.ok a →
        ∀ e ∈ es, ∀ v : Path, e.right = Expr.path v →
          ∃ p, e.left = Expr.path p ∧ p.get_ident = some "typ")
    ∧ (∀ (st : Args) (e : ExprAssign) (p v : Path) (k : String),
        e.left = Expr.path p → p.get_ident = some k → k ≠ "typ" →
        e.right = Expr.path v → parseStep st e = ParseResult.err ERRMSG) := by
  constructor
  · intro es a h e he v hr
    exact parseFrom_ok_mem_path_rhs es _ a h e he v hr
  · intro st e p v k hl hk hne hr
    exact parseStep_err_non_typ st e p v k hl hk hne hr

/-- Witness for C8: the successfully parsed `typ = Foo` entry has `typ` on
the left, and processing `x = Foo` fails with the fixed diagnostic. -/
theorem c8_typ_is_reserved_witness :
    Args.parse [typEntry "Foo"] = ParseResult.ok (Args.mk [] "Foo")
    ∧ (typEntry "Foo") ∈ [typEntry "Foo"]
    ∧ (typEntry "Foo").right = Expr.path (identPath "Foo")
    ∧ (∃ p, (typEntry "Foo").left = Expr.path p ∧ p.get_ident = some "typ")
    ∧ ({ left := identExpr "x", right := identExpr "Foo" } : ExprAssign).left = Expr.path (identPath "x")
    ∧ (identPath "x").get_ident = some "x"
    ∧ "x" ≠ "typ"
    ∧ parseStep (Args.mk [] "ArrayString") { left := identExpr "x", right := identExpr "Foo" } = ParseResult.err ERRMSG := by
  refine ⟨rfl, List.mem_singleton.mpr rfl, rfl, ?_, rfl, get_ident_identPath "x", by decide, ?_⟩
  · exact c8_typ_is_reserved.1 [typEntry "Foo"] _ rfl (typEntry "Foo")
      (List.mem_singleton.mpr rfl) (identPath "Foo") rfl
  · exact c8_typ_is_reserved.2 _ _ (identPath "x") (identPath "Foo") "x" rfl
      (get_ident_identPath "x") (by decide) rfl

/-- C9: for every configuration and every struct, the fold preserves the
struct's attributes, visibility, name and generics, and the fields' shape,
order, count and per-field metadata — everything except the field types. -/
theorem c9_declaration_frame_preserved (a : Args) (s : ItemStruct) :
    (a.fold_item_struct s).attrs = s.attrs
    ∧ (a.fold_item_struct s).vis = s.vis
    ∧ (a.fold_item_struct s).ident = s.ident
    ∧ (a.fold_item_struct s).generics = s.generics
    ∧ (a.fold_item_struct s).fields.frame = s.fields.frame := by
  refine ⟨rfl, rfl, rfl, rfl, ?_⟩
  show (a.fold_fields s.fields).frame = s.fields.frame
  cases s.fields with
  | named fs => exact congrArg FieldsFrame.named (map_fold_field_frame a fs)
  | unnamed fs => exact congrArg FieldsFrame.unnamed (map_fold_field_frame a fs)
  | unit => rfl

/-- C10: a field with no name (a tuple-struct member) is returned unchanged
by `fold_field`, whatever the configuration's `size_map` contains. -/
theorem c10_unnamed_field_unchanged (a : Args) (f : Field) (h : f.ident = none) :
    a.fold_field f = f := by
  simp [Args.fold_field, h]

/-- Witness for C10: an unnamed `String` field survives a configuration with
a populated `size_map`. -/
theorem c10_unnamed_field_unchanged_witness :
    (Field.mk [] Vis.inherited FieldMutability.noMut none false (Ty.path (identPath "String"))).ident = none
    ∧ (Args.mk [("x", 4)] "ArrayString").fold_field
        (Field.mk [] Vis.inherited FieldMutability.noMut none false (Ty.path (identPath "String")))
      = Field.mk [] Vis.inherited FieldMutability.noMut none false (Ty.path (identPath "String")) :=
  ⟨rfl, c10_unnamed_field_unchanged _ _ rfl⟩

end FixedSize
